import Mathlib

/-!
Verification development for `faculty/batch_score_submissions.py` and its
leaderboard logic.  The Python source is shallowly embedded: CSV cells become
an inductive `Cell` type, `pandas` numeric coercion becomes `toNumeric`, the
multi-key stable sort of `DataFrame.sort_values` becomes a stable `mergeSort`
under the lexicographic comparator `cmpRecord`, and the per-submission
pipeline of `main` becomes an explicit `Except`-valued state walk driven by an
oracle of external-collaborator outcomes.
-/

deriving instance DecidableEq for Except

namespace BatchScore

/-- Value held by one leaderboard CSV cell, as seen by `pandas`:
`num q` is a value that `pd.to_numeric` parses to the rational `q`
(a float, an int, or a numeric string), `str s` is a string that does not
parse as a number (the scripts store `""` in the metric fields of an ERROR
record), and `na` is a missing value (`NaN`). -/
inductive Cell where
  | num (q : ℚ)
  | str (s : String)
  | na
deriving DecidableEq

/-- Embedding of `pd.to_numeric(column, errors="coerce")` on one cell:
numeric values survive, anything unparsable or missing becomes `NaN`,
represented by `none` (never zero). -/
def toNumeric : Cell → Option ℚ
  | .num q => some q
  | _ => none

/-- Result of coercing one cell: `pd.to_numeric` keeps numbers and turns
everything else into `NaN` (`Cell.na`). -/
def coerceCell (c : Cell) : Cell :=
  match toNumeric c with
  | some q => .num q
  | none => .na

/-- One row of the leaderboard table, mirroring the column list
`["team", "submission", "auroc", "auprc", "brier", "n", "timestamp",
"status", "notes"]` of `upsert_leaderboard`. -/
structure Record where
  team : String
  submission : String
  auroc : Cell
  auprc : Cell
  brier : Cell
  n : Cell
  timestamp : String
  status : String
  notes : String
deriving DecidableEq

/-- Numeric coercion of the four metric columns of one row, as performed by
the four `pd.to_numeric` lines of `upsert_leaderboard`. -/
def coerceRecord (r : Record) : Record :=
  { r with auroc := coerceCell r.auroc, auprc := coerceCell r.auprc,
           brier := coerceCell r.brier, n := coerceCell r.n }

/-- Three-way comparison on rationals, the order `pandas` sorts numeric
values by. -/
def cmpQ (a b : ℚ) : Ordering :=
  if a < b then .lt else if b < a then .gt else .eq

/-- One descending sort key with missing values last: this is how
`sort_values(..., ascending=False)` orders a numeric column, since the
default `na_position` is `"last"` for either direction. -/
def cmpOptDesc : Option ℚ → Option ℚ → Ordering
  | some a, some b => cmpQ b a
  | some _, none => .lt
  | none, some _ => .gt
  | none, none => .eq

/-- One ascending sort key with missing values last. -/
def cmpOptAsc : Option ℚ → Option ℚ → Ordering
  | some a, some b => cmpQ a b
  | some _, none => .lt
  | none, some _ => .gt
  | none, none => .eq

/-- Lexicographic combination of a comparator on each pair component. -/
def lexCmp {α β : Type} (c : α → α → Ordering) (d : β → β → Ordering)
    (p q : α × β) : Ordering :=
  (c p.1 q.1).then (d p.2 q.2)

/-- Sort key of one leaderboard row: the coerced `auroc`, `auprc` and `brier`
columns, in the order given to `sort_values`. -/
def sortKey (r : Record) : Option ℚ × Option ℚ × Option ℚ :=
  (toNumeric r.auroc, toNumeric r.auprc, toNumeric r.brier)

/-- Comparator on sort keys: `auroc` descending, then `auprc` descending,
then `brier` ascending, missing values last within each key.  This is the
multi-key comparison performed by
`df.sort_values(by=["auroc", "auprc", "brier"], ascending=[False, False, True])`. -/
def cmpKey : Option ℚ × Option ℚ × Option ℚ → Option ℚ × Option ℚ × Option ℚ → Ordering :=
  lexCmp cmpOptDesc (lexCmp cmpOptDesc cmpOptAsc)

/-- Comparator on whole rows, via their sort keys. -/
def cmpRecord (a b : Record) : Ordering :=
  cmpKey (sortKey a) (sortKey b)

/-- Boolean order used for the stable sort: row `a` may stay before row `b`
unless the comparator strictly prefers `b`.  A stable `mergeSort` under this
order is exactly the stable multi-key `lexsort` that `pandas` performs. -/
def recLE (a b : Record) : Bool :=
  match cmpRecord a b with
  | .gt => false
  | _ => true

/-- Embedding of `upsert_leaderboard(leaderboard_csv, record)` acting on the
parsed table: drop every row of the same team, append the new record, coerce
the four metric columns to numeric, and stably sort by the display order.
The caller passes `[]` when the CSV file does not exist yet. -/
def upsert_leaderboard (table : List Record) (record : Record) : List Record :=
  List.mergeSort
    (((table.filter (fun row => row.team != record.team)) ++ [record]).map coerceRecord)
    recLE

/-- Check that one row carries a non-numeric or missing value in one of the
four metric columns. -/
def hasMissingMetric (r : Record) : Bool :=
  (toNumeric r.auroc).isNone || (toNumeric r.auprc).isNone ||
    (toNumeric r.brier).isNone || (toNumeric r.n).isNone

/-- Check that all four metric columns of one row hold numeric values. -/
def allValidMetrics (r : Record) : Bool :=
  (toNumeric r.auroc).isSome && (toNumeric r.auprc).isSome &&
    (toNumeric r.brier).isSome && (toNumeric r.n).isSome

/-- Statement of the claimed ordering guarantee: in the persisted table, no
row holding a non-numeric or missing metric may appear before a row whose
metrics are all valid numerics. -/
def missingAfterValid (l : List Record) : Prop :=
  l.Pairwise (fun a b => hasMissingMetric a = true → allValidMetrics b = true → False)

/-- Leaderboard row with all four metrics valid. -/
def rowAllValid : Record :=
  { team := "TeamB", submission := "v1", auroc := .num 90, auprc := .num 60,
    brier := .num 12, n := .num 500, timestamp := "2026-01-01T00:00:00+00:00",
    status := "OK", notes := "" }

/-- Leaderboard row with a higher `auroc` but an unparsable `auprc` cell. -/
def rowPartialMissing : Record :=
  { team := "TeamA", submission := "v2", auroc := .num 95, auprc := .str ("x"),
    brier := .num 10, n := .num 500, timestamp := "2026-01-02T00:00:00+00:00",
    status := "OK", notes := "" }

/-- Two rows that tie on all three sort keys but belong to distinct teams. -/
def rowTieFirst : Record :=
  { team := "T1", submission := "a", auroc := .num 50, auprc := .num 40,
    brier := .num 5, n := .num 100, timestamp := "2026-01-01T00:00:00+00:00",
    status := "OK", notes := "" }

/-- Second row of the tied pair, appended after `rowTieFirst`. -/
def rowTieSecond : Record :=
  { team := "T2", submission := "b", auroc := .num 50, auprc := .num 40,
    brier := .num 5, n := .num 100, timestamp := "2026-01-02T00:00:00+00:00",
    status := "OK", notes := "" }

/-- Default notebook path, `DEFAULT_NB` in the script. -/
def DEFAULT_NB : String := "Project-1/readmit30/notebooks/submission.ipynb"

/-- Python whitespace characters stripped by `str.strip()`. -/
def pyIsSpace (c : Char) : Bool :=
  c == ' ' || c == '\t' || c == '\n' || c == '\r' || c == '\x0b' || c == '\x0c'

/-- Embedding of Python `s.strip()`: remove leading and trailing whitespace. -/
def pyStrip (s : String) : String :=
  ⟨((s.data.dropWhile pyIsSpace).reverse.dropWhile pyIsSpace).reverse⟩

/-- The `Submission` dataclass of the script. -/
structure Submission where
  team : String
  repo_url : String
  ref : String
  nb_path : String
deriving DecidableEq

/-- One row handed to `load_submissions` by `csv.DictReader`: a column is
`none` when the key is absent from the row dictionary (missing header
column), and `some s` when its cell holds the string `s`. -/
structure Row where
  team : Option String
  repo_url : Option String
  ref : Option String
  nb_path : Option String
deriving DecidableEq

/-- Failure raised while loading one row: `row[col]` on an absent key raises
a `KeyError` naming the column. -/
inductive LoadError where
  | keyError (col : String)
deriving DecidableEq

/-- Embedding of `row.get("nb_path", DEFAULT_NB).strip() or DEFAULT_NB`:
take the cell when the column is present (else the default), strip it, and
fall back to the default when the stripped value is empty. -/
def nbPathOf (v : Option String) : String :=
  if pyStrip (v.getD DEFAULT_NB) = "" then DEFAULT_NB else pyStrip (v.getD DEFAULT_NB)

/-- Loading of one row inside the `load_submissions` loop: `row["team"]`,
`row["repo_url"]` and `row["ref"]` are read in that order (raising
`KeyError` at the first absent one), stripped, and packed into a
`Submission`; `nb_path` is optional with a default. -/
def loadRow (row : Row) : Except LoadError Submission :=
  match row.team, row.repo_url, row.ref with
  | some team, some repo_url, some ref =>
      .ok { team := pyStrip team, repo_url := pyStrip repo_url, ref := pyStrip ref,
            nb_path := nbPathOf row.nb_path }
  | none, _, _ => .error (.keyError ("team"))
  | some _, none, _ => .error (.keyError ("repo_url"))
  | some _, some _, none => .error (.keyError ("ref"))

/-- Embedding of `load_submissions`: rows are loaded in order and appended;
an exception while loading any row propagates and aborts the whole load. -/
def load_submissions : List Row → Except LoadError (List Submission)
  | [] => .ok []
  | row :: rest =>
    match loadRow row with
    | .error e => .error e
    | .ok sub =>
      match load_submissions rest with
      | .error e => .error e
      | .ok subs => .ok (sub :: subs)

/-- Path separator as an explicit one-character string. -/
def slashStr : String := ⟨['/']⟩

/-- Embedding of `Path` division as slash concatenation.  `pathlib` division
agrees with this on relative right operands that introduce no empty, `.` or
`..` components; a right operand outside that set (dropped `.`/empty
components, an absolute override) can alias distinct arguments to one path,
so every distinctness theorem below restricts the varying component to
`plainName` values, on which division really is injective concatenation. -/
def pathJoin (a b : String) : String := a ++ slashStr ++ b

/-- A POSIX path is absolute when it starts with a slash. -/
def isAbs (p : String) : Bool :=
  match p.data with
  | [] => false
  | c :: _ => c == '/'

/-- Embedding of `Path(p).resolve()` relative to the process working
directory: an absolute path stays as it is, a relative one is anchored at
the working directory.  Only this anchoring is modelled — not the `..`/`.`
elimination or symlink resolution the real call performs — so
path-distinctness conclusions are drawn only for paths differing in a
`plainName` component, where the real lexical normalisation also keeps
them distinct. -/
def resolve (cwd p : String) : String :=
  if isAbs p then p else pathJoin cwd p

/-- A string that acts as one genuine path component under `pathlib`
division: non-empty, slash-free and not a dot component.  On such
components `Path` division appends exactly one component, so two distinct
`plainName` components under the same parent give distinct directories and
stay distinct under lexical `..`-elimination. -/
def plainName (s : String) : Prop :=
  s ≠ "" ∧ (∀ c ∈ s.data, c ≠ '/') ∧ s ≠ "." ∧ s ≠ ".."

instance (s : String) : Decidable (plainName s) := by
  unfold plainName
  infer_instance

/-- Run-level configuration relevant to the per-submission loop: the parsed
command-line options together with the process working directory that
`Path.resolve()` resolves against. -/
structure RunConfig where
  cwd : String
  hidden_test : String
  hidden_labels : String
  train_path : String
  dev_path : String
  workdir : String
  python : String
  use_venv : Bool
deriving DecidableEq

/-- Team-name normalisation of `f"{sub.team}".replace(" ", "_")`: every
space becomes an underscore. -/
def normTeam (t : String) : String :=
  ⟨t.data.map (fun c => if c == ' ' then '_' else c)⟩

/-- Per-team working directory `workdir / team.replace(" ", "_")`. -/
def teamDirFor (cfg : RunConfig) (team : String) : String :=
  pathJoin cfg.workdir (normTeam team)

/-- Interpreter used for a submission: the per-team venv python when
`--use-venv` is set, else the configured base python, neither resolved to
an absolute path. -/
def pythonExeFor (cfg : RunConfig) (team_dir : String) : String :=
  if cfg.use_venv then pathJoin (pathJoin (pathJoin team_dir (".venv")) ("bin")) ("python")
  else cfg.python

/-- The five variables injected into the executed notebook's environment. -/
structure ExecEnv where
  PYTHON_EXE : String
  TEST_PATH : String
  OUT_PATH : String
  TRAIN_PATH : String
  DEV_PATH : String
deriving DecidableEq

/-- Embedding of the environment-variable block of `main`'s loop
(`env["PYTHON_EXE"] = ...` through `env["DEV_PATH"] = ...`): the test and
output paths are resolved, and the train/dev paths take the run-level
override when it is non-empty (Python truthiness of the option string),
else the repo-relative default under the team's checkout. -/
def buildEnv (cfg : RunConfig) (team_dir python_exe : String) : ExecEnv :=
  { PYTHON_EXE := python_exe
  , TEST_PATH := resolve cfg.cwd cfg.hidden_test
  , OUT_PATH := resolve cfg.cwd (pathJoin team_dir ("predictions.csv"))
  , TRAIN_PATH := if cfg.train_path ≠ "" then resolve cfg.cwd cfg.train_path
      else resolve cfg.cwd (pathJoin team_dir ("data/public/train.csv"))
  , DEV_PATH := if cfg.dev_path ≠ "" then resolve cfg.cwd cfg.dev_path
      else resolve cfg.cwd (pathJoin team_dir ("data/public/dev.csv")) }

/-- Environment injected for one submission, rebuilt inside the loop body on
every per-submission iteration from that submission's own team directory. -/
def envFor (cfg : RunConfig) (sub : Submission) : ExecEnv :=
  buildEnv cfg (teamDirFor cfg sub.team) (pythonExeFor cfg (teamDirFor cfg sub.team))

/-- Stages of the per-submission pipeline. -/
inductive Stage where
  | reset
  | clone
  | checkout
  | installDeps
  | execute
  | score
  | record
deriving DecidableEq

/-- Metrics dictionary returned by the external `score_predictions`. -/
structure Scores where
  auroc : ℚ
  auprc : ℚ
  brier : ℚ
  n : ℚ
deriving DecidableEq

/-- Outcomes of the external collaborators for one submission: the clock
value, the working-directory reset (`shutil.rmtree`), and the five staged
operations of the `try` block.  `Except.error e` carries `str(e)` of the
exception the operation raised. -/
structure StageWorld where
  ts : String
  reset : Except String Unit
  clone : Except String Unit
  checkout : Except String Unit
  install : Except String Unit
  execute : Except String Unit
  score : Except String Scores
deriving DecidableEq

/-- The record dictionary as initialised at the top of the loop body:
empty-string metrics, status `ERROR`, empty notes. -/
def initRecord (ts : String) (sub : Submission) : Record :=
  { team := sub.team, submission := sub.ref, auroc := Cell.str (""),
    auprc := Cell.str (""), brier := Cell.str (""), n := Cell.str (""),
    timestamp := ts, status := "ERROR", notes := "" }

/-- The `try` block of the loop body: clone, checkout, dependency install
(with optional venv), notebook execution, scoring — in order, stopping at
the first raised exception. -/
def tryBody (w : StageWorld) : Except String Scores :=
  match w.clone with
  | .error e => .error e
  | .ok _ =>
    match w.checkout with
    | .error e => .error e
    | .ok _ =>
      match w.install with
      | .error e => .error e
      | .ok _ =>
        match w.execute with
        | .error e => .error e
        | .ok _ => w.score

/-- The stages of the `try` block whose external operation is actually
invoked for a given world: each stage runs only when every earlier stage
succeeded. -/
def attemptedStages (w : StageWorld) : List Stage :=
  match w.clone with
  | .error _ => [.clone]
  | .ok _ =>
    match w.checkout with
    | .error _ => [.clone, .checkout]
    | .ok _ =>
      match w.install with
      | .error _ => [.clone, .checkout, .installDeps]
      | .ok _ =>
        match w.execute with
        | .error _ => [.clone, .checkout, .installDeps, .execute]
        | .ok _ => [.clone, .checkout, .installDeps, .execute, .score]

/-- The ResultRecord produced for one submission: on success of the whole
`try` block the metric fields and status `OK` are filled in from the
scores; on any stage failure the initial ERROR record is kept with `notes`
set to the message truncated at 300 characters (`str(e)[:300]`). -/
def recordFor (w : StageWorld) (sub : Submission) : Record :=
  match tryBody w with
  | .ok sc =>
    { initRecord w.ts sub with
      auroc := Cell.num sc.auroc, auprc := Cell.num sc.auprc,
      brier := Cell.num sc.brier, n := Cell.num sc.n,
      status := "OK", notes := "" }
  | .error e => { initRecord w.ts sub with notes := e.take 300 }

/-- One iteration of the loop: the working-directory reset runs before the
`try` block, so an exception it raises propagates out of the loop; inside
the `try` every stage failure is caught and converted into the record. -/
def processSub (w : StageWorld) (sub : Submission) : Except String Record :=
  match w.reset with
  | .error e => .error e
  | .ok _ => .ok (recordFor w sub)

/-- Outcome of a batch run: the final persisted leaderboard, the records
produced and upserted (in submission order), and the uncaught exception
that ended the run early, if any. -/
structure BatchResult where
  board : List Record
  processed : List Record
  aborted : Option String
deriving DecidableEq

/-- Embedding of the `for sub in subs:` loop of `main`, with the outcomes of
the external world for the i-th submission given by `W i`: each submission
is processed in order and its record upserted into the leaderboard; an
uncaught exception aborts the remaining iterations. -/
def runBatch (W : ℕ → StageWorld) : List Submission → ℕ → List Record → BatchResult
  | [], _, board => { board := board, processed := [], aborted := none }
  | sub :: rest, i, board =>
    match processSub (W i) sub with
    | .error e => { board := board, processed := [], aborted := some e }
    | .ok r =>
      let res := runBatch W rest (i + 1) (upsert_leaderboard board r)
      { board := res.board, processed := r :: res.processed, aborted := res.aborted }

/-- Reference list of the records the loop should produce: one per
submission, in order. -/
def processedRef (W : ℕ → StageWorld) : ℕ → List Submission → List Record
  | _, [] => []
  | i, sub :: rest => recordFor (W i) sub :: processedRef W (i + 1) rest

/-- Command line of the `make_submission_notebook.py` invocation inside
`execute_notebook`: the extractor's input and output file arguments. -/
structure ExtractorCmd where
  input : String
  output : String
deriving DecidableEq

/-- Command line of the `jupyter nbconvert` invocation: the notebook passed
to `--execute`, the `--output` target and the timeout. -/
structure NbconvertCmd where
  nb : String
  out_nb : String
  timeout_s : ℕ
deriving DecidableEq

/-- The two external commands `execute_notebook` issues, in order. -/
structure NotebookRun where
  extractor : ExtractorCmd
  nbconvert : NbconvertCmd
deriving DecidableEq

/-- Embedding of `execute_notebook(repo_dir, nb_relpath, env, timeout_s,
out_nb)`: resolve the notebook inside the checkout, fail when it does not
exist, otherwise run the extractor with the notebook as both `--input` and
`--output`, then run `nbconvert` on that same file with `--output out_nb`.
`nb_exists` is the outcome of the `nb_path.exists()` probe. -/
def execute_notebook (repo_dir nb_relpath : String) (timeout_s : ℕ) (out_nb : String)
    (nb_exists : Bool) : Except String NotebookRun :=
  if nb_exists then
    .ok { extractor := { input := pathJoin repo_dir nb_relpath,
                         output := pathJoin repo_dir nb_relpath },
          nbconvert := { nb := pathJoin repo_dir nb_relpath, out_nb := out_nb,
                         timeout_s := timeout_s } }
  else .error ("Notebook not found: " ++ pathJoin repo_dir nb_relpath)

/-! Concrete inputs used by counterexamples and witnesses. -/

/-- Row with every required field present but a blank `team` cell. -/
def rowBlankTeam : Row :=
  { team := some ("   "), repo_url := some ("https://example.edu/a.git"),
    ref := some ("v1"), nb_path := none }

/-- Row with every field present and non-blank. -/
def rowComplete : Row :=
  { team := some (" TeamA "), repo_url := some ("https://example.edu/a.git"),
    ref := some (" v1 "), nb_path := some ("  nb/custom.ipynb  ") }

/-- Row whose `ref` column is absent. -/
def rowNoRef : Row :=
  { team := some ("TeamA"), repo_url := some ("https://example.edu/a.git"),
    ref := none, nb_path := none }

/-- Configuration with a relative base interpreter and no overrides. -/
def cfgRelPython : RunConfig :=
  { cwd := "/home/faculty/course", hidden_test := "faculty/hidden_test.csv",
    hidden_labels := "faculty/hidden_labels.csv", train_path := "", dev_path := "",
    workdir := "faculty_workdir", python := "python3", use_venv := false }

/-- Configuration with an absolute interpreter and a train-path override. -/
def cfgOverride : RunConfig :=
  { cwd := "/home/faculty/course", hidden_test := "/data/hidden_test.csv",
    hidden_labels := "/data/hidden_labels.csv", train_path := "/data/train.csv",
    dev_path := "", workdir := "/srv/work", python := "/usr/bin/python3",
    use_venv := false }

/-- First sample submission. -/
def subTeamA : Submission :=
  { team := "TeamA", repo_url := "https://example.edu/a.git", ref := "v1",
    nb_path := DEFAULT_NB }

/-- Second sample submission. -/
def subTeamB : Submission :=
  { team := "TeamB", repo_url := "https://example.edu/b.git", ref := "final",
    nb_path := DEFAULT_NB }

/-- Sample metrics returned by the scorer. -/
def scoresA : Scores := { auroc := 85, auprc := 60, brier := 12, n := 500 }

/-- World in which every external operation succeeds. -/
def worldOk : StageWorld :=
  { ts := "2026-02-01T00:00:00+00:00", reset := .ok (), clone := .ok (),
    checkout := .ok (), install := .ok (), execute := .ok (),
    score := .ok scoresA }

/-- World in which the clone fails. -/
def worldCloneFail : StageWorld :=
  { worldOk with clone := .error ("fatal: repository not found") }

/-- World in which the working-directory reset itself raises. -/
def worldResetFail : StageWorld :=
  { worldOk with reset := .error ("[Errno 13] Permission denied") }

/-- Batch world whose first submission fails at the working-directory
reset. -/
def worldsAbortFirst : ℕ → StageWorld := fun i =>
  if i = 0 then worldResetFail else worldOk

/-- Batch world whose resets all succeed and whose second submission fails
at clone. -/
def worldsSecondCloneFails : ℕ → StageWorld := fun i =>
  { ts := "2026-02-01T00:00:00+00:00", reset := .ok (),
    clone := if i = 0 then .ok () else .error ("fatal: could not read from remote"),
    checkout := .ok (), install := .ok (), execute := .ok (),
    score := .ok scoresA }

/-- The notebook run produced for a sample checkout of the default
notebook. -/
def execRunSample : NotebookRun :=
  { extractor := { input := pathJoin ("faculty_workdir/TeamA") DEFAULT_NB,
                   output := pathJoin ("faculty_workdir/TeamA") DEFAULT_NB },
    nbconvert := { nb := pathJoin ("faculty_workdir/TeamA") DEFAULT_NB,
                   out_nb := "faculty_workdir/TeamA/executed.ipynb",
                   timeout_s := 1200 } }

/-! Comparator laws needed for sortedness and stability of the sort. -/

theorem cmpQ_lt_iff (a b : ℚ) : cmpQ a b = .lt ↔ a < b := by
  unfold cmpQ
  rcases lt_trichotomy a b with h | h | h
  · simp [h]
  · simp [h, lt_irrefl]
  · simp [not_lt_of_gt h, h]

theorem cmpQ_gt_iff (a b : ℚ) : cmpQ a b = .gt ↔ b < a := by
  unfold cmpQ
  rcases lt_trichotomy a b with h | h | h
  · simp [h, not_lt_of_gt h]
  · simp [h, lt_irrefl]
  · simp [not_lt_of_gt h, h]

theorem cmpQ_eq_iff (a b : ℚ) : cmpQ a b = .eq ↔ a = b := by
  unfold cmpQ
  rcases lt_trichotomy a b with h | h | h
  · simp [h, ne_of_lt h]
  · simp [h, lt_irrefl]
  · simp [not_lt_of_gt h, h, (ne_of_lt h).symm]

theorem cmpOptDesc_eq_iff (x y : Option ℚ) : cmpOptDesc x y = .eq ↔ x = y := by
  cases x <;> cases y <;> simp [cmpOptDesc, cmpQ_eq_iff]
  exact eq_comm

theorem cmpOptDesc_gt_iff (x y : Option ℚ) :
    cmpOptDesc x y = .gt ↔ cmpOptDesc y x = .lt := by
  cases x <;> cases y <;> simp [cmpOptDesc, cmpQ_gt_iff, cmpQ_lt_iff]

theorem cmpOptDesc_lt_trans {x y z : Option ℚ} (h1 : cmpOptDesc x y = .lt)
    (h2 : cmpOptDesc y z = .lt) : cmpOptDesc x z = .lt := by
  cases x <;> cases y <;> cases z <;>
    simp_all [cmpOptDesc, cmpQ_lt_iff]
  exact lt_trans h2 h1

theorem cmpOptAsc_eq_iff (x y : Option ℚ) : cmpOptAsc x y = .eq ↔ x = y := by
  cases x <;> cases y <;> simp [cmpOptAsc, cmpQ_eq_iff]

theorem cmpOptAsc_gt_iff (x y : Option ℚ) :
    cmpOptAsc x y = .gt ↔ cmpOptAsc y x = .lt := by
  cases x <;> cases y <;> simp [cmpOptAsc, cmpQ_gt_iff, cmpQ_lt_iff]

theorem cmpOptAsc_lt_trans {x y z : Option ℚ} (h1 : cmpOptAsc x y = .lt)
    (h2 : cmpOptAsc y z = .lt) : cmpOptAsc x z = .lt := by
  cases x <;> cases y <;> cases z <;>
    simp_all [cmpOptAsc, cmpQ_lt_iff]
  exact lt_trans h1 h2

theorem lexCmp_eq_iff {α β : Type} {c : α → α → Ordering} {d : β → β → Ordering}
    (hc : ∀ a b, c a b = .eq ↔ a = b) (hd : ∀ a b, d a b = .eq ↔ a = b)
    (p q : α × β) : lexCmp c d p q = .eq ↔ p = q := by
  cases p with
  | mk p1 p2 =>
    cases q with
    | mk q1 q2 =>
      simp [lexCmp, Ordering.then_eq_eq, hc, hd, Prod.ext_iff]

theorem lexCmp_gt_iff {α β : Type} {c : α → α → Ordering} {d : β → β → Ordering}
    (hceq : ∀ a b, c a b = .eq ↔ a = b) (hc : ∀ a b, c a b = .gt ↔ c b a = .lt)
    (hd : ∀ a b, d a b = .gt ↔ d b a = .lt)
    (p q : α × β) : lexCmp c d p q = .gt ↔ lexCmp c d q p = .lt := by
  cases p with
  | mk p1 p2 =>
    cases q with
    | mk q1 q2 =>
      simp only [lexCmp, Ordering.then_eq_gt, Ordering.then_eq_lt]
      constructor
      · rintro (h | ⟨h1, h2⟩)
        · exact Or.inl ((hc p1 q1).mp h)
        · refine Or.inr ⟨?_, (hd p2 q2).mp h2⟩
          rw [hceq]; exact ((hceq p1 q1).mp h1).symm
      · rintro (h | ⟨h1, h2⟩)
        · exact Or.inl ((hc p1 q1).mpr h)
        · refine Or.inr ⟨?_, (hd p2 q2).mpr h2⟩
          rw [hceq]; exact ((hceq q1 p1).mp h1).symm

theorem lexCmp_lt_trans {α β : Type} {c : α → α → Ordering} {d : β → β → Ordering}
    (hceq : ∀ a b, c a b = .eq ↔ a = b)
    (hct : ∀ a b x, c a b = .lt → c b x = .lt → c a x = .lt)
    (hdt : ∀ a b x, d a b = .lt → d b x = .lt → d a x = .lt)
    {p q r : α × β} (h1 : lexCmp c d p q = .lt) (h2 : lexCmp c d q r = .lt) :
    lexCmp c d p r = .lt := by
  simp only [lexCmp, Ordering.then_eq_lt] at h1 h2 ⊢
  rcases h1 with h1 | ⟨h1e, h1d⟩ <;> rcases h2 with h2 | ⟨h2e, h2d⟩
  · exact Or.inl (hct _ _ _ h1 h2)
  · have hqr := (hceq q.1 r.1).mp h2e
    exact Or.inl (hqr ▸ h1)
  · have hpq := (hceq p.1 q.1).mp h1e
    exact Or.inl (hpq ▸ h2)
  · refine Or.inr ⟨?_, hdt _ _ _ h1d h2d⟩
    rw [hceq]
    exact ((hceq p.1 q.1).mp h1e).trans ((hceq q.1 r.1).mp h2e)

theorem cmpKey_eq_iff (p q : Option ℚ × Option ℚ × Option ℚ) :
    cmpKey p q = .eq ↔ p = q :=
  lexCmp_eq_iff cmpOptDesc_eq_iff
    (fun a b => lexCmp_eq_iff cmpOptDesc_eq_iff cmpOptAsc_eq_iff a b) p q

theorem cmpKey_gt_iff (p q : Option ℚ × Option ℚ × Option ℚ) :
    cmpKey p q = .gt ↔ cmpKey q p = .lt :=
  lexCmp_gt_iff cmpOptDesc_eq_iff cmpOptDesc_gt_iff
    (fun a b => lexCmp_gt_iff cmpOptDesc_eq_iff cmpOptDesc_gt_iff cmpOptAsc_gt_iff a b) p q

theorem cmpKey_lt_trans {p q r : Option ℚ × Option ℚ × Option ℚ}
    (h1 : cmpKey p q = .lt) (h2 : cmpKey q r = .lt) : cmpKey p r = .lt := by
  unfold cmpKey at h1 h2 ⊢
  refine lexCmp_lt_trans cmpOptDesc_eq_iff
    (fun a b x ha hb => cmpOptDesc_lt_trans ha hb) ?_ h1 h2
  intro a b x ha hb
  exact @lexCmp_lt_trans (Option ℚ) (Option ℚ) cmpOptDesc cmpOptAsc cmpOptDesc_eq_iff
    (fun a' b' x' hc hd => cmpOptDesc_lt_trans hc hd)
    (fun a' b' x' hc hd => cmpOptAsc_lt_trans hc hd) a b x ha hb

theorem cmpKey_notgt_trans {p q r : Option ℚ × Option ℚ × Option ℚ}
    (h1 : cmpKey p q ≠ .gt) (h2 : cmpKey q r ≠ .gt) : cmpKey p r ≠ .gt := by
  cases hpq : cmpKey p q with
  | gt => exact absurd hpq h1
  | eq =>
    have he := (cmpKey_eq_iff p q).mp hpq
    rw [he]; exact h2
  | lt =>
    cases hqr : cmpKey q r with
    | gt => exact absurd hqr h2
    | eq =>
      have he := (cmpKey_eq_iff q r).mp hqr
      rw [← he]
      simp [hpq]
    | lt =>
      simp [cmpKey_lt_trans hpq hqr]

theorem cmpRecord_eq_cmpKey (a b : Record) :
    cmpRecord a b = cmpKey (sortKey a) (sortKey b) := rfl

theorem recLE_eq_true_iff (a b : Record) : recLE a b = true ↔ cmpRecord a b ≠ .gt := by
  unfold recLE
  cases h : cmpRecord a b <;> simp

theorem recLE_trans : ∀ a b c : Record,
    recLE a b = true → recLE b c = true → recLE a c = true := by
  intro a b c hab hbc
  rw [recLE_eq_true_iff, cmpRecord_eq_cmpKey] at hab hbc ⊢
  exact cmpKey_notgt_trans hab hbc

theorem recLE_total : ∀ a b : Record, (recLE a b || recLE b a) = true := by
  intro a b
  cases h : cmpRecord a b with
  | gt =>
    have hlt : cmpRecord b a = .lt := by
      rw [cmpRecord_eq_cmpKey] at h ⊢
      exact (cmpKey_gt_iff _ _).mp h
    have hba : recLE b a = true := by
      rw [recLE_eq_true_iff, hlt]; simp
    simp [hba]
  | lt =>
    have hab : recLE a b = true := by
      rw [recLE_eq_true_iff, h]; simp
    simp [hab]
  | eq =>
    have hab : recLE a b = true := by
      rw [recLE_eq_true_iff, h]; simp
    simp [hab]

/-- Evaluation of the stable sort on a two-element list. -/
theorem mergeSort_pair {α : Type} (le : α → α → Bool) (a b : α) :
    List.mergeSort [a, b] le = if le a b then [a, b] else [b, a] := by
  rw [List.mergeSort]
  simp only [List.splitInTwo, List.mergeSort_singleton]
  split
  · simp_all [List.merge]
  · simp_all [List.merge]


/-- C1: after `upsert_leaderboard(table, r)` the persisted table contains
exactly one row whose team equals `r.team`, namely `r` itself with its four
metric columns numerically coerced; every previously existing row of that
team is removed, whatever the table was, so repeated upserts for one team
always leave exactly one row reflecting the most recent call. -/
theorem upsert_one_row_per_team (t : List Record) (r : Record) :
    (upsert_leaderboard t r).filter (fun row => row.team == r.team) = [coerceRecord r] := by
  apply List.perm_singleton.mp
  have hperm :
      (upsert_leaderboard t r).Perm
        ((t.filter (fun row => row.team != r.team) ++ [r]).map coerceRecord) :=
    List.mergeSort_perm _ recLE
  refine (hperm.filter _).trans ?_
  rw [List.map_append, List.filter_append]
  have hnil :
      ((t.filter (fun row => row.team != r.team)).map coerceRecord).filter
        (fun row => row.team == r.team) = [] := by
    rw [List.filter_eq_nil_iff]
    intro a ha
    rcases List.mem_map.mp ha with ⟨b, hb, rfl⟩
    have hbne := (List.mem_filter.mp hb).2
    simp only [bne_iff_ne, ne_eq] at hbne
    simp [coerceRecord, hbne]
  have hsingle :
      (([r] : List Record).map coerceRecord).filter
        (fun row => row.team == r.team) = [coerceRecord r] := by
    simp [coerceRecord]
  rw [hnil, hsingle]
  simp

/-- C2 counterexample: a row with an unparsable `auprc` but the highest
`auroc` sorts before an all-valid row, because the multi-key sort orders
missing values last per key, not globally.  So after this upsert the claimed
property "every record with a non-numeric or missing metric sorts after all
records whose metrics are all valid" is violated. -/
theorem upsert_missing_last_ce :
    ¬ missingAfterValid (upsert_leaderboard [rowAllValid] rowPartialMissing) := by
  have h : upsert_leaderboard [rowAllValid] rowPartialMissing
      = [coerceRecord rowPartialMissing, coerceRecord rowAllValid] := by
    show List.mergeSort [coerceRecord rowAllValid, coerceRecord rowPartialMissing] recLE = _
    rw [mergeSort_pair]
    rw [show recLE (coerceRecord rowAllValid) (coerceRecord rowPartialMissing) = false from by decide]
    simp
  rw [h]
  intro hcon
  have hrel := (List.pairwise_cons.mp hcon).1 (coerceRecord rowAllValid) (by simp)
  exact hrel (by decide) (by decide)

/-- C2 (amended): after every upsert the persisted table is sorted by
`auroc` descending, then `auprc` descending, then `brier` ascending, where
within each individual key a missing or non-numeric value orders after all
present values (but a row missing one key may still precede an all-valid row
on an earlier key); and any two rows that tie on all three keys keep their
pre-sort file order (existing rows before the appended record), since the
sort is stable. -/
theorem upsert_sorted_stable (t : List Record) (r : Record) :
    List.Pairwise (fun a b => recLE a b = true) (upsert_leaderboard t r)
    ∧ (∀ a b : Record, cmpRecord a b = .eq →
        List.Sublist [a, b] ((t.filter (fun row => row.team != r.team) ++ [r]).map coerceRecord) →
        List.Sublist [a, b] (upsert_leaderboard t r)) := by
  constructor
  · exact List.sorted_mergeSort recLE_trans recLE_total _
  · intro a b hab hsub
    have h1 : recLE a b = true := by
      rw [recLE_eq_true_iff, hab]
      simp
    exact List.sublist_mergeSort recLE_trans recLE_total (by simp [h1]) hsub

/-- Witness for the stability half of `upsert_sorted_stable`: two rows tied
on all three keys stay in file order after the upsert. -/
theorem upsert_sorted_stable_witness :
    List.Sublist [coerceRecord rowTieFirst, coerceRecord rowTieSecond]
      (upsert_leaderboard [rowTieFirst] rowTieSecond) :=
  (upsert_sorted_stable [rowTieFirst] rowTieSecond).2
    (coerceRecord rowTieFirst) (coerceRecord rowTieSecond)
    (by decide) (List.Sublist.refl _)

/-! Loader results. -/

theorem loadRow_error_of_missing (row : Row)
    (h : row.team = none ∨ row.repo_url = none ∨ row.ref = none) :
    ∃ e, loadRow row = .error e := by
  unfold loadRow
  cases ht : row.team with
  | none => exact ⟨_, rfl⟩
  | some t =>
    cases hu : row.repo_url with
    | none => exact ⟨_, rfl⟩
    | some u =>
      cases hr : row.ref with
      | none => exact ⟨_, rfl⟩
      | some r =>
        rw [ht, hu, hr] at h
        simp at h

/-- C4 counterexample: a row whose `team` cell is blank (whitespace only)
loads successfully into a `Submission` with an empty team name — no
validation error of any kind is raised for blank required fields. -/
theorem load_blank_team_ce :
    load_submissions [rowBlankTeam] =
      .ok [{ team := "", repo_url := "https://example.edu/a.git", ref := "v1",
             nb_path := DEFAULT_NB }] := by
  decide

/-- C4 (amended): loading fails (with a `KeyError`, fatal before any
submission is processed) exactly when some row lacks one of the `team`,
`repo_url` or `ref` columns; every row in which the three columns are
present loads, even when a cell is blank after trimming, and the load then
yields one submission per row. -/
theorem load_requires_columns (rows : List Row) :
    ((∀ row ∈ rows, row.team ≠ none ∧ row.repo_url ≠ none ∧ row.ref ≠ none) →
      ∃ subs, load_submissions rows = .ok subs ∧ subs.length = rows.length)
    ∧ (∀ row ∈ rows, (row.team = none ∨ row.repo_url = none ∨ row.ref = none) →
      ∃ e, load_submissions rows = .error e) := by
  induction rows with
  | nil =>
    refine ⟨fun _ => ⟨[], rfl, rfl⟩, ?_⟩
    intro row hmem
    simp at hmem
  | cons row rest ih =>
    constructor
    · intro hall
      have hrow := hall row (List.mem_cons_self row rest)
      obtain ⟨t, ht⟩ := Option.ne_none_iff_exists'.mp hrow.1
      obtain ⟨u, hu⟩ := Option.ne_none_iff_exists'.mp hrow.2.1
      obtain ⟨r, hr⟩ := Option.ne_none_iff_exists'.mp hrow.2.2
      obtain ⟨subs, hsubs, hlen⟩ := ih.1 (fun x hx => hall x (List.mem_cons_of_mem _ hx))
      refine ⟨{ team := pyStrip t, repo_url := pyStrip u, ref := pyStrip r,
                nb_path := nbPathOf row.nb_path } :: subs, ?_, by simp [hlen]⟩
      simp [load_submissions, loadRow, ht, hu, hr, hsubs]
    · intro row' hmem hbad
      rcases List.mem_cons.mp hmem with rfl | hmem'
      · obtain ⟨e, he⟩ := loadRow_error_of_missing row' hbad
        exact ⟨e, by simp [load_submissions, he]⟩
      · cases hlr : loadRow row with
        | error e => exact ⟨e, by simp [load_submissions, hlr]⟩
        | ok sub =>
          obtain ⟨e, he⟩ := ih.2 row' hmem' hbad
          exact ⟨e, by simp [load_submissions, hlr, he]⟩

/-- Witness for `load_requires_columns`: a complete row loads into one
submission, and a row lacking its `ref` column makes the load fail. -/
theorem load_requires_columns_witness :
    (∃ subs, load_submissions [rowComplete] = .ok subs ∧ subs.length = 1)
    ∧ (∃ e, load_submissions [rowNoRef] = .error e) :=
  ⟨(load_requires_columns [rowComplete]).1 (by decide),
   (load_requires_columns [rowNoRef]).2 rowNoRef (by decide) (by decide)⟩

/-- C9: the loaded submission's `nb_path` is the fixed default when the
`nb_path` column is absent or blank after trimming, and the trimmed
supplied value otherwise. -/
theorem nb_path_defaulting (row : Row) (sub : Submission)
    (h : loadRow row = .ok sub) :
    sub.nb_path =
      match row.nb_path with
      | none => DEFAULT_NB
      | some v => if pyStrip v = "" then DEFAULT_NB else pyStrip v := by
  unfold loadRow at h
  cases ht : row.team with
  | none => rw [ht] at h; simp at h
  | some t =>
    cases hu : row.repo_url with
    | none => rw [ht, hu] at h; simp at h
    | some u =>
      cases hr : row.ref with
      | none => rw [ht, hu, hr] at h; simp at h
      | some r =>
        rw [ht, hu, hr] at h
        simp only [Except.ok.injEq] at h
        rw [← h]
        cases hn : row.nb_path with
        | none =>
          simp only [nbPathOf, hn, Option.getD]
          rw [show pyStrip DEFAULT_NB = DEFAULT_NB from by decide]
          rw [if_neg (show ¬ (DEFAULT_NB = "") from by decide)]
        | some v =>
          simp [nbPathOf, hn]

/-- Witness for `nb_path_defaulting`: a supplied `nb_path` cell is trimmed
and kept. -/
theorem nb_path_defaulting_witness :
    ({ team := "TeamA", repo_url := "https://example.edu/a.git", ref := "v1",
       nb_path := "nb/custom.ipynb" } : Submission).nb_path =
      match rowComplete.nb_path with
      | none => DEFAULT_NB
      | some v => if pyStrip v = "" then DEFAULT_NB else pyStrip v :=
  nb_path_defaulting rowComplete _ (by decide)

/-! String and path lemmas. -/

theorem slashStr_data : slashStr.data = ['/'] := rfl

theorem string_append_cancel_left {a x y : String} (h : a ++ x = a ++ y) : x = y := by
  apply String.ext
  have hd := congrArg String.data h
  rw [String.data_append, String.data_append] at hd
  exact List.append_cancel_left hd

theorem string_append_cancel_right {x y b : String} (h : x ++ b = y ++ b) : x = y := by
  apply String.ext
  have hd := congrArg String.data h
  rw [String.data_append, String.data_append] at hd
  exact List.append_cancel_right hd

theorem pathJoin_inj_right (w : String) {x y : String}
    (h : pathJoin w x = pathJoin w y) : x = y := by
  unfold pathJoin at h
  exact string_append_cancel_left h

theorem pathJoin_inj_left (s : String) {x y : String}
    (h : pathJoin x s = pathJoin y s) : x = y := by
  unfold pathJoin at h
  exact string_append_cancel_right (string_append_cancel_right h)

theorem pathJoin_data_ne_nil (a b : String) : (pathJoin a b).data ≠ [] := by
  unfold pathJoin
  rw [String.data_append, String.data_append]
  simp [slashStr_data]

theorem isAbs_append_of_ne_nil (a b : String) (h : a.data ≠ []) :
    isAbs (a ++ b) = isAbs a := by
  unfold isAbs
  rw [String.data_append]
  cases hd : a.data with
  | nil => exact absurd hd h
  | cons c cs => simp

theorem isAbs_pathJoin_of_ne_nil (A s : String) (h : A.data ≠ []) :
    isAbs (pathJoin A s) = isAbs A := by
  unfold pathJoin
  have h2 : (A ++ slashStr).data ≠ [] := by
    rw [String.data_append]
    simp [slashStr_data]
  rw [isAbs_append_of_ne_nil _ _ h2, isAbs_append_of_ne_nil _ _ h]

theorem isAbs_pathJoin_indep (a b c : String) :
    isAbs (pathJoin a b) = isAbs (pathJoin a c) := by
  unfold pathJoin isAbs
  rw [String.data_append, String.data_append, String.data_append, String.data_append]
  cases hd : a.data with
  | nil => simp [slashStr_data]
  | cons x xs => simp

theorem isAbs_resolve (cwd p : String) (h : isAbs cwd = true) :
    isAbs (resolve cwd p) = true := by
  unfold resolve
  split
  · assumption
  · have h1 : cwd.data ≠ [] := by
      intro hnil
      unfold isAbs at h
      rw [hnil] at h
      simp at h
    rw [isAbs_pathJoin_of_ne_nil _ _ h1]
    exact h

theorem resolve_inj (cwd : String) {p q : String} (hab : isAbs p = isAbs q)
    (h : resolve cwd p = resolve cwd q) : p = q := by
  unfold resolve at h
  cases habs : isAbs p with
  | true =>
    have habq : isAbs q = true := hab ▸ habs
    simpa [habs, habq] using h
  | false =>
    have habq : isAbs q = false := hab ▸ habs
    rw [habs, habq] at h
    simp only [Bool.false_eq_true, if_false] at h
    exact pathJoin_inj_right cwd h

/-! Environment-builder results. -/

/-- C8 counterexample: the distinct team names `a b` and `a_b` are mapped
to the same per-team working directory, so the team-to-directory mapping is
not injective and these two teams would share a working directory within a
run. -/
theorem teamDir_collision_ce :
    teamDirFor cfgRelPython ("a b") = teamDirFor cfgRelPython ("a_b")
    ∧ ("a b" : String) ≠ ("a_b" : String) := by
  decide

/-- C8 (amended): the team-to-directory mapping is not injective — any two
team names that agree after replacing every space with an underscore are
assigned the same working directory (as the counterexample instantiates);
conversely, on teams whose normalised names are plain path components
(non-empty, slash-free, not a dot component — the region where `Path`
division appends one genuine component), equal working directories force
equal normalised names, so such teams with distinct normalised names never
share a directory. -/
theorem teamDir_eq_iff_plain (cfg : RunConfig) (t1 t2 : String) :
    (normTeam t1 = normTeam t2 → teamDirFor cfg t1 = teamDirFor cfg t2)
    ∧ (plainName (normTeam t1) → plainName (normTeam t2) →
      (teamDirFor cfg t1 = teamDirFor cfg t2 ↔ normTeam t1 = normTeam t2)) := by
  constructor
  · intro h
    unfold teamDirFor
    rw [h]
  · intro _ _
    constructor
    · intro h
      exact pathJoin_inj_right cfg.workdir h
    · intro h
      unfold teamDirFor
      rw [h]

/-- Witness for `teamDir_eq_iff_plain` at concrete plain team names. -/
theorem teamDir_eq_iff_plain_witness :
    teamDirFor cfgRelPython ("x y") = teamDirFor cfgRelPython ("x_y") :=
  ((teamDir_eq_iff_plain cfgRelPython ("x y") ("x_y")).2
    (by decide) (by decide)).mpr (by decide)

/-- C7 counterexample: with the default relative working directory and a
relative base interpreter (`--python python3`), the injected interpreter
reference is the relative string `python3`, so not every variable injected
into the execution environment is an absolute path. -/
theorem env_python_not_absolute_ce :
    ¬ (isAbs (envFor cfgRelPython subTeamA).PYTHON_EXE = true
       ∧ isAbs (envFor cfgRelPython subTeamA).TEST_PATH = true
       ∧ isAbs (envFor cfgRelPython subTeamA).OUT_PATH = true
       ∧ isAbs (envFor cfgRelPython subTeamA).TRAIN_PATH = true
       ∧ isAbs (envFor cfgRelPython subTeamA).DEV_PATH = true) := by
  decide

/-- C7 (amended): whenever the process working directory is absolute, the
test-data, output-predictions, train-data and dev-data variables injected
into the execution environment are absolute paths, and the
output-predictions variable is exactly the resolved
`<team_dir>/predictions.csv`; the interpreter reference, however, is passed
through as configured (base python, or the venv python under the team
directory) and is not resolved to an absolute path. -/
theorem env_paths_absolute (cfg : RunConfig) (sub : Submission)
    (h : isAbs cfg.cwd = true) :
    isAbs (envFor cfg sub).TEST_PATH = true
    ∧ isAbs (envFor cfg sub).OUT_PATH = true
    ∧ isAbs (envFor cfg sub).TRAIN_PATH = true
    ∧ isAbs (envFor cfg sub).DEV_PATH = true
    ∧ (envFor cfg sub).OUT_PATH
        = resolve cfg.cwd (pathJoin (teamDirFor cfg sub.team) ("predictions.csv"))
    ∧ (envFor cfg sub).PYTHON_EXE = pythonExeFor cfg (teamDirFor cfg sub.team) := by
  have htr : isAbs (envFor cfg sub).TRAIN_PATH = true := by
    simp only [envFor, buildEnv]
    split
    · exact isAbs_resolve _ _ h
    · exact isAbs_resolve _ _ h
  have hdev : isAbs (envFor cfg sub).DEV_PATH = true := by
    simp only [envFor, buildEnv]
    split
    · exact isAbs_resolve _ _ h
    · exact isAbs_resolve _ _ h
  exact ⟨isAbs_resolve _ _ h, isAbs_resolve _ _ h, htr, hdev, rfl, rfl⟩

/-- Witness for `env_paths_absolute` at a concrete configuration. -/
theorem env_paths_absolute_witness :
    isAbs (envFor cfgOverride subTeamA).TEST_PATH = true
    ∧ isAbs (envFor cfgOverride subTeamA).OUT_PATH = true
    ∧ isAbs (envFor cfgOverride subTeamA).TRAIN_PATH = true
    ∧ isAbs (envFor cfgOverride subTeamA).DEV_PATH = true
    ∧ (envFor cfgOverride subTeamA).OUT_PATH
        = resolve cfgOverride.cwd
            (pathJoin (teamDirFor cfgOverride subTeamA.team) ("predictions.csv"))
    ∧ (envFor cfgOverride subTeamA).PYTHON_EXE
        = pythonExeFor cfgOverride (teamDirFor cfgOverride subTeamA.team) :=
  env_paths_absolute cfgOverride subTeamA (by decide)

/-- C5: the injected train-data variable equals the resolved run-level
override exactly when one is supplied (non-empty), and otherwise the
resolved repo-relative default under this submission's own checkout; the
dev-data variable obeys the same precedence; and the value is recomputed
from the submission being processed on every call — with no override, two
submissions whose normalised team names are distinct plain path components
(non-empty, slash-free, not dot components, so that path resolution keeps
them lexically distinct) receive different train paths, so the injected
value cannot be a constant cached across submissions. -/
theorem train_dev_precedence (cfg : RunConfig) (sub : Submission) :
    (cfg.train_path ≠ "" →
      (envFor cfg sub).TRAIN_PATH = resolve cfg.cwd cfg.train_path)
    ∧ (cfg.train_path = "" →
      (envFor cfg sub).TRAIN_PATH
        = resolve cfg.cwd (pathJoin (teamDirFor cfg sub.team) ("data/public/train.csv")))
    ∧ (cfg.dev_path ≠ "" →
      (envFor cfg sub).DEV_PATH = resolve cfg.cwd cfg.dev_path)
    ∧ (cfg.dev_path = "" →
      (envFor cfg sub).DEV_PATH
        = resolve cfg.cwd (pathJoin (teamDirFor cfg sub.team) ("data/public/dev.csv")))
    ∧ (∀ sub' : Submission, cfg.train_path = "" →
      plainName (normTeam sub.team) → plainName (normTeam sub'.team) →
      normTeam sub.team ≠ normTeam sub'.team →
      (envFor cfg sub).TRAIN_PATH ≠ (envFor cfg sub').TRAIN_PATH) := by
  refine ⟨?_, ?_, ?_, ?_, ?_⟩
  · intro hne
    simp only [envFor, buildEnv]
    rw [if_pos hne]
  · intro heq
    simp only [envFor, buildEnv]
    rw [if_neg (by simp [heq])]
  · intro hne
    simp only [envFor, buildEnv]
    rw [if_pos hne]
  · intro heq
    simp only [envFor, buildEnv]
    rw [if_neg (by simp [heq])]
  · intro sub' heq _ _ hne hcontra
    have hL : (envFor cfg sub).TRAIN_PATH
        = resolve cfg.cwd (pathJoin (teamDirFor cfg sub.team) ("data/public/train.csv")) := by
      simp only [envFor, buildEnv]
      rw [if_neg (by simp [heq])]
    have hR : (envFor cfg sub').TRAIN_PATH
        = resolve cfg.cwd (pathJoin (teamDirFor cfg sub'.team) ("data/public/train.csv")) := by
      simp only [envFor, buildEnv]
      rw [if_neg (by simp [heq])]
    rw [hL, hR] at hcontra
    have hab : isAbs (pathJoin (teamDirFor cfg sub.team) ("data/public/train.csv"))
        = isAbs (pathJoin (teamDirFor cfg sub'.team) ("data/public/train.csv")) := by
      unfold teamDirFor
      rw [isAbs_pathJoin_of_ne_nil _ _ (pathJoin_data_ne_nil _ _),
        isAbs_pathJoin_of_ne_nil _ _ (pathJoin_data_ne_nil _ _)]
      exact isAbs_pathJoin_indep cfg.workdir (normTeam sub.team) (normTeam sub'.team)
    have hpaths := resolve_inj cfg.cwd hab hcontra
    have hdirs := pathJoin_inj_left ("data/public/train.csv") hpaths
    exact hne (pathJoin_inj_right cfg.workdir hdirs)

/-- Witness for `train_dev_precedence`: a supplied override wins. -/
theorem train_dev_precedence_witness :
    (envFor cfgOverride subTeamA).TRAIN_PATH
      = resolve cfgOverride.cwd cfgOverride.train_path :=
  (train_dev_precedence cfgOverride subTeamA).1 (by decide)

/-! Pipeline results. -/

theorem processedRef_length (W : ℕ → StageWorld) :
    ∀ (i0 : ℕ) (subs : List Submission),
      (processedRef W i0 subs).length = subs.length := by
  intro i0 subs
  induction subs generalizing i0 with
  | nil => rfl
  | cons sub rest ih => simp [processedRef, ih]

theorem runBatch_ok (W : ℕ → StageWorld) (subs : List Submission) :
    ∀ (i0 : ℕ) (board : List Record),
      (∀ i, i < subs.length → (W (i0 + i)).reset = .ok ()) →
      runBatch W subs i0 board =
        { board := (processedRef W i0 subs).foldl upsert_leaderboard board,
          processed := processedRef W i0 subs, aborted := none } := by
  induction subs with
  | nil => intro i0 board _; rfl
  | cons sub rest ih =>
    intro i0 board h
    have h0 : (W i0).reset = .ok () := by
      have := h 0 (by simp)
      simpa using this
    have h' : ∀ i, i < rest.length → (W (i0 + 1 + i)).reset = .ok () := by
      intro i hi
      have hx := h (i + 1) (by simpa using Nat.succ_lt_succ hi)
      rwa [show i0 + (i + 1) = i0 + 1 + i from by omega] at hx
    simp only [runBatch, processSub, h0]
    rw [ih (i0 + 1) (upsert_leaderboard board (recordFor (W i0) sub)) h']
    simp [processedRef]

/-- C3 counterexample: a failure in the RESET_WORKDIR step (here,
`shutil.rmtree` raising a permission error) happens outside the
per-submission `try` block, so it aborts the whole batch: with two
submissions whose first fails at reset, no record is produced at all and
the second submission is never processed. -/
theorem batch_abort_ce :
    ¬ ((runBatch worldsAbortFirst [subTeamA, subTeamB] 0 []).aborted = none
       ∧ (runBatch worldsAbortFirst [subTeamA, subTeamB] 0 []).processed.length = 2) := by
  decide

/-- C3 (amended): provided every submission's RESET_WORKDIR step succeeds,
a failure at any caught stage (CLONE, CHECKOUT, INSTALL_DEPS, EXECUTE,
SCORE) terminates that submission's remaining stages but never aborts the
batch: the run finishes with no uncaught exception, exactly one
ResultRecord per submission is produced in order and folded into the
leaderboard by successive upserts, and a stage failure prevents every later
stage of the same submission from being attempted.  A RESET_WORKDIR
failure, by contrast, aborts the batch (see the counterexample). -/
theorem batch_isolation (W : ℕ → StageWorld) (subs : List Submission) (i0 : ℕ)
    (board : List Record)
    (h : ∀ i, i < subs.length → (W (i0 + i)).reset = .ok ()) :
    (runBatch W subs i0 board).aborted = none
    ∧ (runBatch W subs i0 board).processed = processedRef W i0 subs
    ∧ (runBatch W subs i0 board).processed.length = subs.length
    ∧ (runBatch W subs i0 board).board
        = (processedRef W i0 subs).foldl upsert_leaderboard board
    ∧ (∀ w : StageWorld, ∀ e : String, w.clone = .error e →
        attemptedStages w = [Stage.clone])
    ∧ (∀ w : StageWorld, ∀ e : String, w.clone = .ok () → w.checkout = .error e →
        attemptedStages w = [Stage.clone, Stage.checkout])
    ∧ (∀ w : StageWorld, ∀ e : String, w.clone = .ok () → w.checkout = .ok () →
        w.install = .error e →
        attemptedStages w = [Stage.clone, Stage.checkout, Stage.installDeps])
    ∧ (∀ w : StageWorld, ∀ e : String, w.clone = .ok () → w.checkout = .ok () →
        w.install = .ok () → w.execute = .error e →
        attemptedStages w
          = [Stage.clone, Stage.checkout, Stage.installDeps, Stage.execute]) := by
  have hrun := runBatch_ok W subs i0 board h
  rw [hrun]
  refine ⟨rfl, rfl, processedRef_length W i0 subs, rfl, ?_, ?_, ?_, ?_⟩
  · intro w e h1
    simp [attemptedStages, h1]
  · intro w e h1 h2
    simp [attemptedStages, h1, h2]
  · intro w e h1 h2 h3
    simp [attemptedStages, h1, h2, h3]
  · intro w e h1 h2 h3 h4
    simp [attemptedStages, h1, h2, h3, h4]

/-- Witness for `batch_isolation`: two submissions, the second failing at
clone, still produce a completed batch with two records. -/
theorem batch_isolation_witness :
    (runBatch worldsSecondCloneFails [subTeamA, subTeamB] 0 []).aborted = none
    ∧ (runBatch worldsSecondCloneFails [subTeamA, subTeamB] 0 []).processed.length = 2 :=
  ⟨(batch_isolation worldsSecondCloneFails [subTeamA, subTeamB] 0 []
      (fun _ _ => rfl)).1,
   (batch_isolation worldsSecondCloneFails [subTeamA, subTeamB] 0 []
      (fun _ _ => rfl)).2.2.1⟩

/-- C6: when every stage succeeds, the produced record carries status `OK`
and the four metric fields from the scorer's result; when any stage fails,
it carries status `ERROR`, metric cells that the upsert's numeric coercion
turns into missing values (never zero), and notes equal to the failure
message truncated to 300 characters. -/
theorem record_status_fields (w : StageWorld) (sub : Submission) :
    (∀ sc : Scores, tryBody w = .ok sc →
      recordFor w sub =
        { team := sub.team, submission := sub.ref, auroc := Cell.num sc.auroc,
          auprc := Cell.num sc.auprc, brier := Cell.num sc.brier,
          n := Cell.num sc.n, timestamp := w.ts, status := "OK", notes := "" })
    ∧ (∀ e : String, tryBody w = .error e →
      recordFor w sub =
        { team := sub.team, submission := sub.ref, auroc := Cell.str (""),
          auprc := Cell.str (""), brier := Cell.str (""), n := Cell.str (""),
          timestamp := w.ts, status := "ERROR", notes := e.take 300 }
      ∧ coerceRecord (recordFor w sub) =
        { team := sub.team, submission := sub.ref, auroc := Cell.na,
          auprc := Cell.na, brier := Cell.na, n := Cell.na,
          timestamp := w.ts, status := "ERROR", notes := e.take 300 }
      ∧ Cell.na ≠ Cell.num 0) := by
  constructor
  · intro sc hsc
    simp [recordFor, hsc, initRecord]
  · intro e he
    refine ⟨?_, ?_, by simp⟩
    · simp [recordFor, he, initRecord]
    · simp [recordFor, he, initRecord, coerceRecord, coerceCell, toNumeric]

/-- Witness for `record_status_fields`: an all-success world yields the OK
record, and a clone failure yields the ERROR record whose metrics coerce to
missing. -/
theorem record_status_fields_witness :
    recordFor worldOk subTeamA =
      { team := subTeamA.team, submission := subTeamA.ref,
        auroc := Cell.num scoresA.auroc, auprc := Cell.num scoresA.auprc,
        brier := Cell.num scoresA.brier, n := Cell.num scoresA.n,
        timestamp := worldOk.ts, status := "OK", notes := "" }
    ∧ (recordFor worldCloneFail subTeamA =
        { team := subTeamA.team, submission := subTeamA.ref,
          auroc := Cell.str (""), auprc := Cell.str (""), brier := Cell.str (""),
          n := Cell.str (""), timestamp := worldCloneFail.ts, status := "ERROR",
          notes := ("fatal: repository not found").take 300 }
      ∧ coerceRecord (recordFor worldCloneFail subTeamA) =
        { team := subTeamA.team, submission := subTeamA.ref, auroc := Cell.na,
          auprc := Cell.na, brier := Cell.na, n := Cell.na,
          timestamp := worldCloneFail.ts, status := "ERROR",
          notes := ("fatal: repository not found").take 300 }
      ∧ Cell.na ≠ Cell.num 0) :=
  ⟨(record_status_fields worldOk subTeamA).1 scoresA rfl,
   (record_status_fields worldCloneFail subTeamA).2
     ("fatal: repository not found") rfl⟩

/-- C10: when the submitted notebook exists in the checkout, the EXECUTE
stage invokes the extracting script with the checked-out notebook file as
both its input and its output arguments — rewriting the team's checked-out
notebook in place — and `nbconvert` then executes that same mutated file;
only its execution output goes to the separate `out_nb` file. -/
theorem extractor_rewrites_in_place (repo_dir nb_relpath : String) (timeout_s : ℕ)
    (out_nb : String) (r : NotebookRun)
    (h : execute_notebook repo_dir nb_relpath timeout_s out_nb true = .ok r) :
    r.extractor.input = pathJoin repo_dir nb_relpath
    ∧ r.extractor.output = r.extractor.input
    ∧ r.nbconvert.nb = r.extractor.input
    ∧ r.nbconvert.out_nb = out_nb := by
  unfold execute_notebook at h
  rw [if_pos rfl] at h
  injection h with h2
  rw [← h2]
  exact ⟨rfl, rfl, rfl, rfl⟩

/-- Witness for `extractor_rewrites_in_place` at a concrete checkout. -/
theorem extractor_rewrites_in_place_witness :
    execRunSample.extractor.input = pathJoin ("faculty_workdir/TeamA") DEFAULT_NB
    ∧ execRunSample.extractor.output = execRunSample.extractor.input
    ∧ execRunSample.nbconvert.nb = execRunSample.extractor.input
    ∧ execRunSample.nbconvert.out_nb = "faculty_workdir/TeamA/executed.ipynb" :=
  extractor_rewrites_in_place ("faculty_workdir/TeamA") DEFAULT_NB 1200
    ("faculty_workdir/TeamA/executed.ipynb") execRunSample rfl

end BatchScore
